import Mathlib

/-!
Shallow embedding of univang::condition_variable (condition_variable.hpp),
a pthread condition variable initialized with CLOCK_MONOTONIC.

Modelling choices:
* timespec is a pair of integers (tv_sec, tv_nsec).
* A relative duration is an integer count of nanoseconds (the C++ code is
  templated over chrono durations; any duration with period at least one
  nanosecond converts exactly to this form, and duration_cast toward
  seconds truncates toward zero, which for positive values is d / 10^9).
* The pthread layer is an oracle environment Env: owns_lock is the state of
  the caller's unique_lock, ret k is the return code of the k-th underlying
  blocking call (pthread_cond_wait / pthread_cond_timedwait), and pred k is
  the value of the caller's predicate when evaluated after k completed
  underlying calls.  Each operation threads the call counter k and records
  the trace of underlying blocking calls it performs.
* Thrown std::system_error values become the error side of an Except:
  preconditionError is the operation_not_permitted error thrown when the
  lock is not held, operationError ec the error thrown on an unexpected
  return code ec.
* The predicate loops are given fuel (the loops need not terminate for an
  adversarial environment); none means the loop was still running.
-/

namespace univang

/-- POSIX timespec: seconds and nanoseconds fields. -/
structure Timespec where
  tv_sec : Int
  tv_nsec : Int
deriving DecidableEq, Repr

/-- Errors thrown by the condition variable operations. -/
inductive CvError where
  /-- system_error(operation_not_permitted): mutex not locked by caller. -/
  | preconditionError : CvError
  /-- system_error(ec, generic_category()): unexpected native error. -/
  | operationError (ec : Int) : CvError
deriving DecidableEq, Repr

/-- std::cv_status. -/
inductive CvStatus where
  | no_timeout : CvStatus
  | timeout : CvStatus
deriving DecidableEq, Repr

/-- A record of one invocation of an underlying blocking primitive. -/
inductive PrimCall where
  /-- pthread_cond_wait was invoked. -/
  | condWait : PrimCall
  /-- pthread_cond_timedwait was invoked with absolute deadline ts. -/
  | condTimedwait (ts : Timespec) : PrimCall
deriving DecidableEq, Repr

/-- The Linux errno value ETIMEDOUT returned by pthread_cond_timedwait on
deadline expiry. -/
def ETIMEDOUT : Int := 110

/-- Oracle environment for one wait call: lock state, return codes of the
successive underlying blocking calls, and predicate values indexed by the
number of completed underlying calls. -/
structure Env where
  owns_lock : Bool
  ret : Nat → Int
  pred : Nat → Bool

/-- Result of a wait operation: the returned value or thrown error, the
next underlying-call index, and the trace of underlying blocking calls. -/
structure WaitResult (α : Type) where
  res : Except CvError α
  next : Nat
  calls : List PrimCall
deriving Repr

instance (α : Type) [DecidableEq α] : DecidableEq (WaitResult α) := by
  intro a b
  cases a with
  | mk r n c =>
    cases b with
    | mk r' n' c' =>
      cases r <;> cases r' <;>
        first
        | (apply isFalse; intro h; exact Except.noConfusion (congrArg WaitResult.res h))
        | · rename_i x y
            by_cases hx : x = y
            · subst hx
              by_cases hn : n = n'
              · subst hn
                by_cases hc : c = c'
                · subst hc; exact isTrue rfl
                · exact isFalse (fun h => hc (congrArg WaitResult.calls h))
              · exact isFalse (fun h => hn (congrArg WaitResult.next h))
            · apply isFalse
              intro h
              exact hx (Except.noConfusion (congrArg WaitResult.res h) (fun h' => h'))

/-- wait(lock): check owns_lock, then pthread_cond_wait; nonzero return
code is thrown as a system_error. -/
def wait (e : Env) (k : Nat) : WaitResult Unit :=
  if e.owns_lock = false then
    ⟨.error .preconditionError, k, []⟩
  else if e.ret k = 0 then
    ⟨.ok (), k + 1, [.condWait]⟩
  else
    ⟨.error (.operationError (e.ret k)), k + 1, [.condWait]⟩

/-- wait(lock, pred): while(!pred()) wait(lock). -/
def waitPred (e : Env) : Nat → Nat → Option (WaitResult Unit)
  | 0, _ => none
  | fuel + 1, k =>
    if e.pred k then some ⟨.ok (), k, []⟩
    else
      match wait e k with
      | ⟨.error er, next, calls⟩ => some ⟨.error er, next, calls⟩
      | ⟨.ok _, next, calls⟩ =>
        (waitPred e fuel next).map fun r => ⟨r.res, r.next, calls ++ r.calls⟩

/-- to_abs_time_(rel_time): if rel_time <= 0 the zero sentinel; otherwise
current monotonic time plus rel_time split into whole seconds and remaining
nanoseconds, with one carry normalization.  now is the value read by
clock_gettime(CLOCK_MONOTONIC); d is rel_time in nanoseconds. -/
def to_abs_time_ (now : Timespec) (d : Int) : Timespec :=
  if d ≤ 0 then ⟨0, 0⟩
  else
    let s := d / 1000000000
    let ns := d - s * 1000000000
    let sec := now.tv_sec + s
    let nsec := now.tv_nsec + ns
    if nsec ≥ 1000000000 then ⟨sec + 1, nsec - 1000000000⟩ else ⟨sec, nsec⟩

/-- wait_until_(lock, ts): check owns_lock, then pthread_cond_timedwait;
0 maps to no_timeout, ETIMEDOUT to timeout, anything else is thrown. -/
def wait_until_ (e : Env) (ts : Timespec) (k : Nat) : WaitResult CvStatus :=
  if e.owns_lock = false then
    ⟨.error .preconditionError, k, []⟩
  else if e.ret k = 0 then
    ⟨.ok .no_timeout, k + 1, [.condTimedwait ts]⟩
  else if e.ret k = ETIMEDOUT then
    ⟨.ok .timeout, k + 1, [.condTimedwait ts]⟩
  else
    ⟨.error (.operationError (e.ret k)), k + 1, [.condTimedwait ts]⟩

/-- wait_for(lock, rel_time): convert to an absolute monotonic deadline and
delegate to wait_until_. -/
def wait_for (e : Env) (now : Timespec) (d : Int) (k : Nat) : WaitResult CvStatus :=
  wait_until_ e (to_abs_time_ now d) k

/-- wait_for(lock, rel_time, pred) loop body, with the deadline ts already
computed: while(!pred()) if(wait_until_(lock, ts) == timeout) return pred();
return true. -/
def wait_forPredLoop (e : Env) (ts : Timespec) : Nat → Nat → Option (WaitResult Bool)
  | 0, _ => none
  | fuel + 1, k =>
    if e.pred k then some ⟨.ok true, k, []⟩
    else
      match wait_until_ e ts k with
      | ⟨.error er, next, calls⟩ => some ⟨.error er, next, calls⟩
      | ⟨.ok .timeout, next, calls⟩ => some ⟨.ok (e.pred next), next, calls⟩
      | ⟨.ok .no_timeout, next, calls⟩ =>
        (wait_forPredLoop e ts fuel next).map fun r => ⟨r.res, r.next, calls ++ r.calls⟩

/-- wait_for(lock, rel_time, pred): the deadline is computed once, before
the loop. -/
def wait_forPred (e : Env) (now : Timespec) (d : Int) (fuel k : Nat) :
    Option (WaitResult Bool) :=
  wait_forPredLoop e (to_abs_time_ now d) fuel k

/-- wait_until(lock, abs_time): the deadline is to_abs_time_ applied to
abs_time - Clock::now(); t and clockNow are the target time point and the
current time on the caller's clock, both in nanoseconds. -/
def wait_until (e : Env) (now : Timespec) (clockNow t : Int) (k : Nat) :
    WaitResult CvStatus :=
  wait_until_ e (to_abs_time_ now (t - clockNow)) k

/-- wait_until(lock, abs_time, pred) loop body, a textual copy of the
wait_for predicate loop in the source. -/
def wait_untilPredLoop (e : Env) (ts : Timespec) : Nat → Nat → Option (WaitResult Bool)
  | 0, _ => none
  | fuel + 1, k =>
    if e.pred k then some ⟨.ok true, k, []⟩
    else
      match wait_until_ e ts k with
      | ⟨.error er, next, calls⟩ => some ⟨.error er, next, calls⟩
      | ⟨.ok .timeout, next, calls⟩ => some ⟨.ok (e.pred next), next, calls⟩
      | ⟨.ok .no_timeout, next, calls⟩ =>
        (wait_untilPredLoop e ts fuel next).map fun r => ⟨r.res, r.next, calls ++ r.calls⟩

/-- wait_until(lock, abs_time, pred): deadline computed once from
abs_time - Clock::now(), then the predicate loop. -/
def wait_untilPred (e : Env) (now : Timespec) (clockNow t : Int) (fuel k : Nat) :
    Option (WaitResult Bool) :=
  wait_untilPredLoop e (to_abs_time_ now (t - clockNow)) fuel k

/-- Record of one underlying call made during construction. -/
inductive InitCall where
  | condattr_init : InitCall
  | condattr_setclock : InitCall
  | cond_init_call : InitCall
  | condattr_destroy : InitCall
deriving DecidableEq, Repr

/-- Oracle environment for the constructor: return codes of
pthread_condattr_init, pthread_condattr_setclock(CLOCK_MONOTONIC) and
pthread_cond_init, should each be reached. -/
structure InitEnv where
  attr_init_ec : Int
  setclock_ec : Int
  cond_init_ec : Int

/-- The constructor: attr init; if ok, setclock, then (if ok) cond init,
then attr destroy; finally throw the pending nonzero code if any. -/
def construct (env : InitEnv) : Except Int Unit × List InitCall :=
  if env.attr_init_ec ≠ 0 then
    (.error env.attr_init_ec, [.condattr_init])
  else if env.setclock_ec ≠ 0 then
    (.error env.setclock_ec, [.condattr_init, .condattr_setclock, .condattr_destroy])
  else if env.cond_init_ec ≠ 0 then
    (.error env.cond_init_ec,
      [.condattr_init, .condattr_setclock, .cond_init_call, .condattr_destroy])
  else
    (.ok (), [.condattr_init, .condattr_setclock, .cond_init_call, .condattr_destroy])

/-- Helper: the two predicate timed-wait loops in the source are textually
identical; as functions of the precomputed deadline they are equal. -/
theorem wait_untilPredLoop_eq (e : Env) (ts : Timespec) :
    ∀ fuel k, wait_untilPredLoop e ts fuel k = wait_forPredLoop e ts fuel k := by
  intro fuel
  induction fuel with
  | zero => intro k; rfl
  | succ n ih =>
    intro k
    rw [wait_untilPredLoop, wait_forPredLoop]
    by_cases hp : e.pred k
    · simp [hp]
    · simp only [hp, Bool.false_eq_true, if_false]
      cases hw : wait_until_ e ts k with
      | mk res next calls =>
        cases res with
        | error er => rfl
        | ok st => cases st <;> simp [ih]

/-- Helper: every successful run of the wait_for predicate loop returns the
predicate's value at its final index, returns false only strictly after a
timedwait that reported ETIMEDOUT, and all its underlying calls are
timedwaits on the single precomputed deadline ts. -/
theorem wait_forPredLoop_spec (e : Env) (ts : Timespec) :
    ∀ (fuel k : Nat) (r : WaitResult Bool),
      wait_forPredLoop e ts fuel k = some r →
      (∀ b, r.res = .ok b → b = e.pred r.next) ∧
      (r.res = .ok false → k < r.next ∧ e.ret (r.next - 1) = ETIMEDOUT) ∧
      (∀ c ∈ r.calls, c = PrimCall.condTimedwait ts) := by
  intro fuel
  induction fuel with
  | zero => intro k r h; simp [wait_forPredLoop] at h
  | succ n ih =>
    intro k r h
    rw [wait_forPredLoop] at h
    by_cases hp : e.pred k
    · simp only [hp, if_true, Option.some.injEq] at h
      subst h
      refine ⟨?_, ?_, ?_⟩ <;> simp [hp]
    · simp only [hp, Bool.false_eq_true, if_false] at h
      by_cases ho : e.owns_lock = true
      · by_cases h0 : e.ret k = 0
        · rw [show wait_until_ e ts k
              = ⟨.ok .no_timeout, k + 1, [.condTimedwait ts]⟩ from by
            simp [wait_until_, ho, h0]] at h
          rw [Option.map_eq_some'] at h
          obtain ⟨a, ha, rfl⟩ := h
          obtain ⟨ih1, ih2, ih3⟩ := ih (k + 1) a ha
          refine ⟨ih1, fun hf => ?_, fun c hc => ?_⟩
          · obtain ⟨h1, h2⟩ := ih2 hf
            exact ⟨show k < a.next by omega, h2⟩
          · rcases List.mem_cons.mp hc with h | h
            · exact h
            · exact ih3 c h
        · by_cases hT : e.ret k = ETIMEDOUT
          · rw [show wait_until_ e ts k
                = ⟨.ok .timeout, k + 1, [.condTimedwait ts]⟩ from by
              simp [wait_until_, ETIMEDOUT, ho, h0, hT]] at h
            simp only [Option.some.injEq] at h
            subst h
            refine ⟨?_, fun _ => ⟨Nat.lt_succ_self k, by simpa using hT⟩, ?_⟩ <;>
              simp
          · rw [show wait_until_ e ts k
                = ⟨.error (.operationError (e.ret k)), k + 1,
                    [.condTimedwait ts]⟩ from by
              simp [wait_until_, ho, h0, hT]] at h
            simp only [Option.some.injEq] at h
            subst h
            refine ⟨?_, ?_, ?_⟩ <;> simp
      · have ho' : e.owns_lock = false := by
          cases hb : e.owns_lock
          · rfl
          · exact absurd hb ho
        rw [show wait_until_ e ts k = ⟨.error .preconditionError, k, []⟩ from by
          simp [wait_until_, ho']] at h
        simp only [Option.some.injEq] at h
        subst h
        refine ⟨?_, ?_, ?_⟩ <;> simp

/-- C2: for every positive relative duration d and valid current monotonic
time (tv_nsec in [0, 1e9)), the computed deadline equals now plus d (as a
total count of nanoseconds) and its nanosecond field lies in [0, 1e9). -/
theorem C2_deadline_carry (now : Timespec) (d : Int) (hd : 0 < d)
    (h0 : 0 ≤ now.tv_nsec) (h1 : now.tv_nsec < 1000000000) :
    0 ≤ (to_abs_time_ now d).tv_nsec ∧
    (to_abs_time_ now d).tv_nsec < 1000000000 ∧
    (to_abs_time_ now d).tv_sec * 1000000000 + (to_abs_time_ now d).tv_nsec
      = (now.tv_sec * 1000000000 + now.tv_nsec) + d := by
  have hrem0 : 0 ≤ d % 1000000000 := Int.emod_nonneg d (by norm_num)
  have hrem1 : d % 1000000000 < 1000000000 := Int.emod_lt_of_pos d (by norm_num)
  have hdiv : 1000000000 * (d / 1000000000) + d % 1000000000 = d :=
    Int.ediv_add_emod d 1000000000
  simp only [to_abs_time_, if_neg (not_le.mpr hd)]
  split <;> simp <;> omega

/-- Witness for C2 at a carry boundary: now = (7 s, 999999999 ns),
d = 2000000001 ns; the fractional nanoseconds hit exactly one second past
the carry threshold and are normalized. -/
theorem C2_deadline_carry_witness :
    (0 : Int) < 2000000001 ∧
    0 ≤ (to_abs_time_ ⟨7, 999999999⟩ 2000000001).tv_nsec ∧
    (to_abs_time_ ⟨7, 999999999⟩ 2000000001).tv_nsec < 1000000000 ∧
    (to_abs_time_ ⟨7, 999999999⟩ 2000000001).tv_sec * 1000000000 +
      (to_abs_time_ ⟨7, 999999999⟩ 2000000001).tv_nsec
      = ((7 : Int) * 1000000000 + 999999999) + 2000000001 := by
  refine ⟨by norm_num, ?_⟩
  have h := C2_deadline_carry ⟨7, 999999999⟩ 2000000001 (by norm_num)
    (by norm_num) (by norm_num)
  exact h

/-- C4: with the lock held, the return code of pthread_cond_timedwait is
mapped exactly: 0 to no_timeout (Signaled), ETIMEDOUT to timeout (TimedOut),
and every other nonzero code to a thrown operationError carrying that code;
in each case the primitive was invoked exactly once with deadline ts. -/
theorem C4_timedwait_outcome_mapping (e : Env) (ts : Timespec) (k : Nat)
    (hlock : e.owns_lock = true) :
    (e.ret k = 0 →
      wait_until_ e ts k = ⟨.ok .no_timeout, k + 1, [.condTimedwait ts]⟩) ∧
    (e.ret k = ETIMEDOUT →
      wait_until_ e ts k = ⟨.ok .timeout, k + 1, [.condTimedwait ts]⟩) ∧
    (e.ret k ≠ 0 → e.ret k ≠ ETIMEDOUT →
      wait_until_ e ts k
        = ⟨.error (.operationError (e.ret k)), k + 1, [.condTimedwait ts]⟩) := by
  refine ⟨fun h0 => ?_, fun ht => ?_, fun h0 ht => ?_⟩ <;>
    simp_all [wait_until_, ETIMEDOUT]

/-- Witness for C4: an environment whose k-th return codes are 0, 110 and
22 realizes the three outcomes. -/
theorem C4_timedwait_outcome_mapping_witness :
    wait_until_ ⟨true, fun _ => 0, fun _ => false⟩ ⟨1, 2⟩ 0
      = ⟨.ok .no_timeout, 1, [.condTimedwait ⟨1, 2⟩]⟩ ∧
    wait_until_ ⟨true, fun _ => 110, fun _ => false⟩ ⟨1, 2⟩ 0
      = ⟨.ok .timeout, 1, [.condTimedwait ⟨1, 2⟩]⟩ ∧
    wait_until_ ⟨true, fun _ => 22, fun _ => false⟩ ⟨1, 2⟩ 0
      = ⟨.error (.operationError 22), 1, [.condTimedwait ⟨1, 2⟩]⟩ := by
  refine ⟨?_, ?_, ?_⟩
  · exact (C4_timedwait_outcome_mapping ⟨true, fun _ => 0, fun _ => false⟩
      ⟨1, 2⟩ 0 rfl).1 rfl
  · exact (C4_timedwait_outcome_mapping ⟨true, fun _ => 110, fun _ => false⟩
      ⟨1, 2⟩ 0 rfl).2.1 rfl
  · exact (C4_timedwait_outcome_mapping ⟨true, fun _ => 22, fun _ => false⟩
      ⟨1, 2⟩ 0 rfl).2.2 (by norm_num) (by norm_num [ETIMEDOUT])

/-- C5: for every relative duration d <= 0 the computed deadline is the
zero sentinel (independently of the clock value, which is not read), and
wait_for with such d and no pending notify (the single timedwait on the
already-expired deadline reports ETIMEDOUT) returns TimedOut after exactly
one non-blocking timedwait on the zero sentinel. -/
theorem C5_nonpositive_duration_sentinel (e : Env) (now : Timespec) (d : Int)
    (k : Nat) (hd : d ≤ 0) :
    to_abs_time_ now d = ⟨0, 0⟩ ∧
    (e.owns_lock = true → e.ret k = ETIMEDOUT →
      wait_for e now d k = ⟨.ok .timeout, k + 1, [.condTimedwait ⟨0, 0⟩]⟩) := by
  have hts : to_abs_time_ now d = ⟨0, 0⟩ := by
    simp [to_abs_time_, hd]
  refine ⟨hts, fun hlock hret => ?_⟩
  simp_all [wait_for, wait_until_, ETIMEDOUT]

/-- Witness for C5 at d = -5 with an ETIMEDOUT-reporting environment. -/
theorem C5_nonpositive_duration_sentinel_witness :
    to_abs_time_ ⟨3, 4⟩ (-5) = ⟨0, 0⟩ ∧
    wait_for ⟨true, fun _ => 110, fun _ => false⟩ ⟨3, 4⟩ (-5) 0
      = ⟨.ok .timeout, 1, [.condTimedwait ⟨0, 0⟩]⟩ := by
  have h := C5_nonpositive_duration_sentinel ⟨true, fun _ => 110, fun _ => false⟩
    ⟨3, 4⟩ (-5) 0 (by norm_num)
  exact ⟨h.1, h.2 rfl rfl⟩

/-- C1 as stated is false: wait(lock, pred) with the lock not held returns
normally, with no error and no underlying call, when the predicate is
initially true (the while(!pred()) loop body, which contains the ownership
check, is never entered). -/
theorem C1_counterexample :
    waitPred ⟨false, fun _ => 0, fun _ => true⟩ 1 0 = some ⟨.ok (), 0, []⟩ ∧
    Env.owns_lock ⟨false, fun _ => 0, fun _ => true⟩ = false := by
  exact ⟨rfl, rfl⟩

/-- C1 (amended): with the lock not held, wait, wait_for, wait_until and
the private wait_until_ always fail with preconditionError and never invoke
the blocking primitive; the predicate variants do so whenever the predicate
is not initially true (an initially-true predicate returns before the
check, see the counterexample). -/
theorem C1_precondition_amended (e : Env) (ts now : Timespec)
    (d clockNow t : Int) (k fuel : Nat) (hlock : e.owns_lock = false) :
    wait e k = ⟨.error .preconditionError, k, []⟩ ∧
    wait_until_ e ts k = ⟨.error .preconditionError, k, []⟩ ∧
    wait_for e now d k = ⟨.error .preconditionError, k, []⟩ ∧
    wait_until e now clockNow t k = ⟨.error .preconditionError, k, []⟩ ∧
    (e.pred k = false →
      waitPred e (fuel + 1) k = some ⟨.error .preconditionError, k, []⟩) ∧
    (e.pred k = false →
      wait_forPred e now d (fuel + 1) k
        = some ⟨.error .preconditionError, k, []⟩) ∧
    (e.pred k = false →
      wait_untilPred e now clockNow t (fuel + 1) k
        = some ⟨.error .preconditionError, k, []⟩) := by
  refine ⟨?_, ?_, ?_, ?_, fun hp => ?_, fun hp => ?_, fun hp => ?_⟩ <;>
    simp_all [wait, wait_until_, wait_for, wait_until, waitPred,
      wait_forPred, wait_forPredLoop, wait_untilPred, wait_untilPredLoop]

/-- Witness for C1 (amended): unheld lock, initially-false predicate. -/
theorem C1_precondition_amended_witness :
    wait ⟨false, fun _ => 0, fun _ => false⟩ 0
      = ⟨.error .preconditionError, 0, []⟩ ∧
    wait_forPred ⟨false, fun _ => 0, fun _ => false⟩ ⟨0, 0⟩ 50 4 0
      = some ⟨.error .preconditionError, 0, []⟩ := by
  have h := C1_precondition_amended ⟨false, fun _ => 0, fun _ => false⟩
    ⟨0, 0⟩ ⟨0, 0⟩ 50 0 0 0 3 rfl
  exact ⟨h.1, h.2.2.2.2.2.1 rfl⟩

/-- C10: when the predicate is initially true, all three predicate wait
variants return immediately (true in the timed forms) with no underlying
blocking call, whether or not the lock is held: the lock-ownership check
sits inside the loop body, which is never entered. -/
theorem C10_initially_true_predicate (e : Env) (now : Timespec)
    (d clockNow t : Int) (fuel k : Nat) (hpred : e.pred k = true) :
    waitPred e (fuel + 1) k = some ⟨.ok (), k, []⟩ ∧
    wait_forPred e now d (fuel + 1) k = some ⟨.ok true, k, []⟩ ∧
    wait_untilPred e now clockNow t (fuel + 1) k = some ⟨.ok true, k, []⟩ := by
  refine ⟨?_, ?_, ?_⟩ <;>
    simp [waitPred, wait_forPred, wait_forPredLoop, wait_untilPred,
      wait_untilPredLoop, hpred]

/-- Witness for C10 with the lock not held and the predicate already true. -/
theorem C10_initially_true_predicate_witness :
    waitPred ⟨false, fun _ => 7, fun _ => true⟩ 3 5 = some ⟨.ok (), 5, []⟩ ∧
    wait_forPred ⟨false, fun _ => 7, fun _ => true⟩ ⟨1, 1⟩ 99 3 5
      = some ⟨.ok true, 5, []⟩ := by
  have h := C10_initially_true_predicate ⟨false, fun _ => 7, fun _ => true⟩
    ⟨1, 1⟩ 99 0 0 2 5 rfl
  exact ⟨h.1, h.2.1⟩

/-- C8: construction succeeds iff all three initialization steps report 0;
on every failing path after a successful pthread_condattr_init the
attribute is destroyed before the error is thrown; on every failing path
the condition object was never successfully created (pthread_cond_init was
either not reached or itself failed); and the thrown code is the nonzero
native code of the failing step. -/
theorem C8_construct_failure (env : InitEnv) :
    ((construct env).1 = .ok () ↔
      (env.attr_init_ec = 0 ∧ env.setclock_ec = 0 ∧ env.cond_init_ec = 0)) ∧
    (env.attr_init_ec = 0 → (construct env).1 ≠ .ok () →
      InitCall.condattr_destroy ∈ (construct env).2) ∧
    ((construct env).1 ≠ .ok () →
      InitCall.cond_init_call ∈ (construct env).2 → env.cond_init_ec ≠ 0) ∧
    (∀ ec : Int, (construct env).1 = .error ec →
      ec ≠ 0 ∧ (ec = env.attr_init_ec ∨ ec = env.setclock_ec ∨
        ec = env.cond_init_ec)) := by
  by_cases h1 : env.attr_init_ec = 0 <;>
    by_cases h2 : env.setclock_ec = 0 <;>
      by_cases h3 : env.cond_init_ec = 0 <;>
        simp_all [construct]

/-- Witness for C8: pthread_condattr_setclock failing with code 22 makes
construction throw 22, with the attribute destroyed and no condition
object created. -/
theorem C8_construct_failure_witness :
    (construct ⟨0, 22, 0⟩).1 = .error 22 ∧
    InitCall.condattr_destroy ∈ (construct ⟨0, 22, 0⟩).2 ∧
    ((22 : Int) ≠ 0 ∧ ((22 : Int) = 0 ∨ (22 : Int) = 22 ∨ (22 : Int) = 0)) := by
  have h := C8_construct_failure ⟨0, 22, 0⟩
  refine ⟨rfl, h.2.1 rfl (by simp [construct]), h.2.2.2 22 rfl⟩

/-- C6: wait(lock, pred) is a loop of plain wait(lock) calls that only
returns normally once the predicate, re-evaluated after every wakeup,
holds at the moment of return; every underlying call of the run is a
pthread_cond_wait. -/
theorem C6_wait_predicate_loop (e : Env) :
    ∀ (fuel k : Nat) (r : WaitResult Unit),
      waitPred e fuel k = some r →
      (r.res = .ok () → e.pred r.next = true) ∧
      (∀ c ∈ r.calls, c = PrimCall.condWait) := by
  intro fuel
  induction fuel with
  | zero => intro k r h; simp [waitPred] at h
  | succ n ih =>
    intro k r h
    rw [waitPred] at h
    by_cases hp : e.pred k
    · simp only [hp, if_true, Option.some.injEq] at h
      subst h
      exact ⟨fun _ => hp, by simp⟩
    · simp only [hp, Bool.false_eq_true, if_false] at h
      by_cases ho : e.owns_lock = true
      · by_cases h0 : e.ret k = 0
        · rw [show wait e k = ⟨.ok (), k + 1, [.condWait]⟩ from by
            simp [wait, ho, h0]] at h
          rw [Option.map_eq_some'] at h
          obtain ⟨a, ha, rfl⟩ := h
          obtain ⟨ih1, ih2⟩ := ih (k + 1) a ha
          refine ⟨ih1, fun c hc => ?_⟩
          rcases List.mem_cons.mp hc with h | h
          · exact h
          · exact ih2 c h
        · rw [show wait e k
              = ⟨.error (.operationError (e.ret k)), k + 1, [.condWait]⟩ from by
            simp [wait, ho, h0]] at h
          simp only [Option.some.injEq] at h
          subst h
          exact ⟨by simp, by simp⟩
      · have ho' : e.owns_lock = false := by
          cases hb : e.owns_lock
          · rfl
          · exact absurd hb ho
        rw [show wait e k = ⟨.error .preconditionError, k, []⟩ from by
          simp [wait, ho']] at h
        simp only [Option.some.injEq] at h
        subst h
        exact ⟨by simp, by simp⟩

/-- Witness for C6: predicate becomes true after two wakeups; the run does
two pthread_cond_wait calls and returns with the predicate true. -/
theorem C6_wait_predicate_loop_witness :
    waitPred ⟨true, fun _ => 0, fun j => decide (2 ≤ j)⟩ 5 0
      = some ⟨.ok (), 2, [.condWait, .condWait]⟩ ∧
    decide (2 ≤ 2) = true ∧
    ∀ c ∈ [PrimCall.condWait, PrimCall.condWait], c = PrimCall.condWait := by
  have h := C6_wait_predicate_loop ⟨true, fun _ => 0, fun j => decide (2 ≤ j)⟩
    5 0 ⟨.ok (), 2, [.condWait, .condWait]⟩ rfl
  exact ⟨rfl, h.1 rfl, h.2⟩

/-- C3 as stated is false: here the predicate is false at every evaluation
made before the deadline (only index 0 is checked before the single
timedwait, which reports ETIMEDOUT, i.e. the deadline passed), yet the
post-timeout re-check sees the predicate true and the call returns true. -/
theorem C3_counterexample :
    wait_forPred ⟨true, fun _ => 110, fun j => decide (1 ≤ j)⟩ ⟨0, 0⟩ 1000 5 0
      = some ⟨.ok true, 1, [.condTimedwait ⟨0, 1000⟩]⟩ ∧
    decide (1 ≤ 0) = false ∧ (110 : Int) = ETIMEDOUT := by
  exact ⟨rfl, rfl, rfl⟩

/-- C3 (amended): wait_for(lock, d, pred) returns the predicate's value at
its final under-lock evaluation — true when the predicate was observed
true, whether strictly before the deadline or at the re-check just after a
timeout — and returns false exactly when an underlying timedwait reported
ETIMEDOUT (the deadline passed) and the subsequent re-check still found
the predicate false. -/
theorem C3_amended_waitfor_predicate (e : Env) (now : Timespec) (d : Int)
    (fuel k : Nat) (r : WaitResult Bool)
    (h : wait_forPred e now d fuel k = some r) :
    (∀ b, r.res = .ok b → b = e.pred r.next) ∧
    (r.res = .ok false → k < r.next ∧ e.ret (r.next - 1) = ETIMEDOUT) := by
  obtain ⟨h1, h2, _⟩ := wait_forPredLoop_spec e (to_abs_time_ now d) fuel k r h
  exact ⟨h1, h2⟩

/-- Witness for C3 (amended): an always-false predicate with a timed-out
wait returns false, and the run indeed contains a timedwait that reported
ETIMEDOUT. -/
theorem C3_amended_waitfor_predicate_witness :
    false = Env.pred ⟨true, fun _ => 110, fun _ => false⟩ 1 ∧
    (0 < 1 ∧ Env.ret ⟨true, fun _ => 110, fun _ => false⟩ 0 = ETIMEDOUT) := by
  have h := C3_amended_waitfor_predicate ⟨true, fun _ => 110, fun _ => false⟩
    ⟨0, 0⟩ 1000 5 0 ⟨.ok false, 1, [.condTimedwait ⟨0, 1000⟩]⟩ rfl
  exact ⟨h.1 false rfl, h.2 rfl⟩

/-- C9: in both predicate timed-wait variants the deadline timespec is
computed once, before the loop, and every underlying timedwait of the run
receives exactly that deadline. -/
theorem C9_single_deadline (e : Env) (now : Timespec) (d clockNow t : Int)
    (fuel k : Nat) (r s : WaitResult Bool)
    (hf : wait_forPred e now d fuel k = some r)
    (hu : wait_untilPred e now clockNow t fuel k = some s) :
    (∀ c ∈ r.calls, c = PrimCall.condTimedwait (to_abs_time_ now d)) ∧
    (∀ c ∈ s.calls,
      c = PrimCall.condTimedwait (to_abs_time_ now (t - clockNow))) := by
  refine ⟨(wait_forPredLoop_spec e _ fuel k r hf).2.2, ?_⟩
  rw [wait_untilPred, wait_untilPredLoop_eq] at hu
  exact (wait_forPredLoop_spec e _ fuel k s hu).2.2

/-- Witness for C9: a run with two wakeups passes the same deadline
(0 s, 1000 ns), computed once from the 1000 ns duration, to both
timedwaits. -/
theorem C9_single_deadline_witness :
    PrimCall.condTimedwait ⟨0, 1000⟩
      = PrimCall.condTimedwait (to_abs_time_ ⟨0, 0⟩ 1000) := by
  have h := C9_single_deadline ⟨true, fun _ => 0, fun j => decide (2 ≤ j)⟩
    ⟨0, 0⟩ 1000 0 1000 5 0
    ⟨.ok true, 2, [.condTimedwait ⟨0, 1000⟩, .condTimedwait ⟨0, 1000⟩]⟩
    ⟨.ok true, 2, [.condTimedwait ⟨0, 1000⟩, .condTimedwait ⟨0, 1000⟩]⟩
    rfl rfl
  exact h.1 (PrimCall.condTimedwait ⟨0, 1000⟩) (by simp)

/-- C7: wait_until derives its deadline as to_abs_time_ applied to the
difference abs_time - Clock::now() and then runs the same code as
wait_for; both the plain and the predicate form coincide with the
corresponding wait_for at the relative duration t - clockNow. -/
theorem C7_wait_until_refines_wait_for (e : Env) (now : Timespec)
    (clockNow t : Int) (fuel k : Nat) :
    wait_until e now clockNow t k = wait_for e now (t - clockNow) k ∧
    wait_untilPred e now clockNow t fuel k
      = wait_forPred e now (t - clockNow) fuel k := by
  exact ⟨rfl, wait_untilPredLoop_eq e (to_abs_time_ now (t - clockNow)) fuel k⟩

end univang
